import Mathlib

/-!
# Verification of the checkpoint memory-recovery subsystem

Shallow embedding of `ClosedUnrefCheckpointRemoverTask`
(`src/engines/ep/src/checkpoint_remover.cc`), the checkpoint-removal wrapper
of the paging visitor (`src/engines/ep/src/paging_visitor.cc`), and a model of
the cursor-facing operations of `CheckpointManager`
(`src/engines/ep/src/checkpoint_manager.h`).

All byte quantities are C++ `size_t` values; subtraction is modelled with an
explicit wrap-around modulo `2 ^ 64` (`usub`).  Additions of memory estimates
are modelled exactly on `Nat` (the source never brings such sums anywhere near
`2 ^ 64`).
-/

/-- `size_t` subtraction (wrap-around modulo `2 ^ 64`) for operands `< 2 ^ 64`. -/
def usub (a b : Nat) : Nat :=
  (2 ^ 64 + a - b) % 2 ^ 64

theorem usub_eq_sub (a b : Nat) (hba : b ≤ a) (ha : a < 2 ^ 64) :
    usub a b = a - b := by
  unfold usub
  have h1 : 2 ^ 64 + a - b = 2 ^ 64 + (a - b) := by omega
  rw [h1, Nat.add_mod_left]
  exact Nat.mod_eq_of_lt (by omega)

/-- Configuration and `EPStats` fields read by the checkpoint-remover task:
`config.getMaxSize()` (the bucket quota), the two checkpoint-memory percentage
marks, `stats.getEstimatedTotalMemoryUsed()`, `stats.mem_low_wat`,
`stats.cursorDroppingUThreshold`, `stats.cursorDroppingLThreshold` and
`config.isChkExpelEnabled()`. -/
structure RemoverEnv where
  maxSize : Nat
  cursorDroppingCheckpointMemUpperMark : Nat
  cursorDroppingCheckpointMemLowerMark : Nat
  estimatedTotalMemoryUsed : Nat
  memLowWat : Nat
  cursorDroppingUThreshold : Nat
  cursorDroppingLThreshold : Nat
  chkExpelEnabled : Bool

/-- Result of `CheckpointManager::expelUnreferencedCheckpointItems()`
(declared in `checkpoint_manager.h`). -/
structure ExpelResult where
  expelCount : Nat
  estimateOfFreeMemory : Nat

/-- The per-vbucket data the remover task reads through the `VBucketPtr`:
the checkpoint-manager memory usage (the sort key of
`getVBucketsSortedByChkMgrMem`), the result that
`expelUnreferencedCheckpointItems()` returns, the cursor list that
`getListOfCursorsToDrop()` returns (cursors are identified by `Nat` ids), and
`getChkMgrMemUsageOfUnrefCheckpoints()` as a function of how many cursors of
this vbucket have already been successfully dropped during the present task
run (dropping a cursor can unreference further checkpoints, so the value read
by the task can change between successive successful drops). -/
structure VBucketData where
  chkMgrMem : Nat
  expelResult : ExpelResult
  cursorsToDrop : List Nat
  unrefMem : Nat → Nat

/-- The `KVBucketIface` surface used by the remover task: the vbucket map as a
listing of `(vbid, data)` pairs, `getVBucket` as a partial lookup (it yields
`none` when the vbucket has meanwhile disappeared), and
`DcpConnMap::handleSlowStream(vbid, cursor)` as an oracle. -/
structure KVBucket where
  vbMap : List (Nat × VBucketData)
  lookup : Nat → Option VBucketData
  handleSlowStream : Nat → Nat → Bool

/-- Modelled from the spec: `VBucketMap::getVBucketsTotalCheckpointMemoryUsage`
is not under `src/`; the spec reads "the overall checkpoint memory usage",
i.e. the sum of the checkpoint memory of all vbuckets. -/
def getVBucketsTotalCheckpointMemoryUsage (vbMap : List (Nat × VBucketData)) : Nat :=
  (vbMap.map fun p => p.2.chkMgrMem).sum

/-- Modelled from the spec: `VBucketMap::getVBucketsSortedByChkMgrMem` is not
under `src/`; the spec reads "Sort partitions by checkpoint memory usage,
descending".  Returns `(vbid, chkMgrMem)` pairs sorted by memory, largest
first. -/
def getVBucketsSortedByChkMgrMem (vbMap : List (Nat × VBucketData)) : List (Nat × Nat) :=
  List.insertionSort (fun a b => b.2 ≤ a.2)
    (vbMap.map fun p => (p.1, p.2.chkMgrMem))

/-- `ClosedUnrefCheckpointRemoverTask::isReductionInCheckpointMemoryNeeded`:
decides whether memory recovery is needed and, if so, how many bytes to try
to clear.  Direct transcription of `checkpoint_remover.cc` lines 31-111. -/
def isReductionInCheckpointMemoryNeeded (env : RemoverEnv)
    (vBucketChkptMemSize : Nat) : Bool × Nat :=
  let bucketQuota := env.maxSize
  let chkptMemLimit :=
    bucketQuota * env.cursorDroppingCheckpointMemUpperMark / 100
  let hitCheckpointMemoryThreshold : Bool :=
    decide (vBucketChkptMemSize ≥ chkptMemLimit)
  let aboveLowWatermark : Bool :=
    decide (env.estimatedTotalMemoryUsed ≥ env.memLowWat)
  let ckptMemExceedsCheckpointMemoryThreshold :=
    aboveLowWatermark && hitCheckpointMemoryThreshold
  let memUsedExceedsCursorDroppingUpperMark : Bool :=
    decide (env.estimatedTotalMemoryUsed > env.cursorDroppingUThreshold)
  if memUsedExceedsCursorDroppingUpperMark ||
      ckptMemExceedsCheckpointMemoryThreshold then
    if ckptMemExceedsCheckpointMemoryThreshold then
      (true,
       usub env.estimatedTotalMemoryUsed
         (bucketQuota * env.cursorDroppingCheckpointMemLowerMark / 100))
    else
      (true, usub env.estimatedTotalMemoryUsed env.cursorDroppingLThreshold)
  else
    (false, 0)

/-- The checkpoint-memory trigger of the remover
(`ckptMemExceedsCheckpointMemoryThreshold` in the source). -/
def ckptMemTrigger (env : RemoverEnv) (vBucketChkptMemSize : Nat) : Prop :=
  env.estimatedTotalMemoryUsed ≥ env.memLowWat ∧
  vBucketChkptMemSize ≥ env.maxSize * env.cursorDroppingCheckpointMemUpperMark / 100

instance (env : RemoverEnv) (m : Nat) : Decidable (ckptMemTrigger env m) := by
  unfold ckptMemTrigger
  infer_instance

/-- Observable actions of one remover-task run, in program order. -/
inductive RemoverEvent where
  | expelCalled (vbid : Nat)
  | cursorsRequested (vbid : Nat)
  | slowStreamHandled (vbid cursor : Nat) (result : Bool)
  | visitorScheduled
  deriving DecidableEq, Repr

/-- `true` for the event emitted by the `checkpointExpel` arm of
`attemptMemoryRecovery`. -/
def RemoverEvent.isExpel : RemoverEvent → Bool
  | .expelCalled _ => true
  | _ => false

/-- `true` for the events emitted by the `cursorDrop` arm of
`attemptMemoryRecovery`. -/
def RemoverEvent.isDrop : RemoverEvent → Bool
  | .cursorsRequested _ => true
  | .slowStreamHandled _ _ _ => true
  | _ => false

/-- The vbucket an event concerns, if any. -/
def RemoverEvent.vbidOf : RemoverEvent → Option Nat
  | .expelCalled v => some v
  | .cursorsRequested v => some v
  | .slowStreamHandled v _ _ => some v
  | .visitorScheduled => none

/-- The two memory-recovery mechanisms of the remover task. -/
inductive MemoryRecoveryMechanism where
  | checkpointExpel
  | cursorDrop
  deriving DecidableEq

/-- The inner cursor loop of the `cursorDrop` arm of
`ClosedUnrefCheckpointRemoverTask::attemptMemoryRecovery`
(`checkpoint_remover.cc` lines 148-161): for each cursor, while
`memoryCleared < amountOfMemoryToClear`, invoke
`handleSlowStream(vbid, cursor)`; on `true` add the vbucket's current
`getChkMgrMemUsageOfUnrefCheckpoints()` (here `unrefMem k` after `k`
successful drops) to `memoryCleared`.  Returns the final `memoryCleared`
and the event trace. -/
def dropLoop (hss : Nat → Nat → Bool) (vbid : Nat) (unrefMem : Nat → Nat)
    (amountOfMemoryToClear : Nat) :
    List Nat → Nat → Nat → Nat × List RemoverEvent
  | [], memoryCleared, _ => (memoryCleared, [])
  | c :: rest, memoryCleared, k =>
    if memoryCleared < amountOfMemoryToClear then
      if hss vbid c then
        let r := dropLoop hss vbid unrefMem amountOfMemoryToClear rest
          (memoryCleared + unrefMem k) (k + 1)
        (r.1, RemoverEvent.slowStreamHandled vbid c true :: r.2)
      else
        let r := dropLoop hss vbid unrefMem amountOfMemoryToClear rest
          memoryCleared k
        (r.1, RemoverEvent.slowStreamHandled vbid c false :: r.2)
    else
      (memoryCleared, [])

/-- The `switch (mechanism)` body of `attemptMemoryRecovery` for one vbucket
(`checkpoint_remover.cc` lines 129-163). -/
def recoverVB (kv : KVBucket) (mechanism : MemoryRecoveryMechanism)
    (amountOfMemoryToClear : Nat) (vbid : Nat) (vb : VBucketData)
    (memoryCleared : Nat) : Nat × List RemoverEvent :=
  match mechanism with
  | .checkpointExpel =>
    (memoryCleared + vb.expelResult.estimateOfFreeMemory,
     [RemoverEvent.expelCalled vbid])
  | .cursorDrop =>
    let r := dropLoop kv.handleSlowStream vbid vb.unrefMem
      amountOfMemoryToClear vb.cursorsToDrop memoryCleared 0
    (r.1, RemoverEvent.cursorsRequested vbid :: r.2)

/-- The vbucket loop of `attemptMemoryRecovery`
(`checkpoint_remover.cc` lines 120-164): visit the sorted vbuckets in order,
break as soon as `memoryCleared ≥ amountOfMemoryToClear`, skip vbuckets whose
lookup yields null. -/
def attemptGo (kv : KVBucket) (mechanism : MemoryRecoveryMechanism)
    (amountOfMemoryToClear : Nat) :
    List (Nat × Nat) → Nat → Nat × List RemoverEvent
  | [], memoryCleared => (memoryCleared, [])
  | (vbid, _) :: rest, memoryCleared =>
    if memoryCleared ≥ amountOfMemoryToClear then
      (memoryCleared, [])
    else
      match kv.lookup vbid with
      | none => attemptGo kv mechanism amountOfMemoryToClear rest memoryCleared
      | some vb =>
        let r := recoverVB kv mechanism amountOfMemoryToClear vbid vb
          memoryCleared
        let r2 := attemptGo kv mechanism amountOfMemoryToClear rest r.1
        (r2.1, r.2 ++ r2.2)

/-- `ClosedUnrefCheckpointRemoverTask::attemptMemoryRecovery`
(`checkpoint_remover.cc` lines 113-166), instrumented with the event trace. -/
def attemptMemoryRecovery (kv : KVBucket) (mechanism : MemoryRecoveryMechanism)
    (amountOfMemoryToClear : Nat) : Nat × List RemoverEvent :=
  attemptGo kv mechanism amountOfMemoryToClear
    (getVBucketsSortedByChkMgrMem kv.vbMap) 0

/-- `ClosedUnrefCheckpointRemoverTask::run`
(`checkpoint_remover.cc` lines 168-209), instrumented with the event trace.
`available` is the value the `compare_exchange_strong` on `available` sees;
when it is `false` the run only snoozes.  Note that the `CheckpointVisitor`
is scheduled whenever the exchange succeeds, after the (possibly empty)
recovery phase. -/
def runRemover (env : RemoverEnv) (kv : KVBucket) (available : Bool) :
    List RemoverEvent :=
  if available then
    let r := isReductionInCheckpointMemoryNeeded env
      (getVBucketsTotalCheckpointMemoryUsage kv.vbMap)
    let recoveryEvents :=
      if r.1 then
        let er :=
          if env.chkExpelEnabled then
            attemptMemoryRecovery kv .checkpointExpel r.2
          else
            (0, [])
        if r.2 > er.1 then
          er.2 ++ (attemptMemoryRecovery kv .cursorDrop (usub r.2 er.1)).2
        else
          er.2
      else
        []
    recoveryEvents ++ [RemoverEvent.visitorScheduled]
  else
    []

/-- C1: `isReductionInCheckpointMemoryNeeded` reports that recovery is needed
iff the estimated total memory used strictly exceeds the
`cursor_dropping_upper_mark` threshold, or it is at least the low watermark
and the total checkpoint memory is at least
`cursor_dropping_checkpoint_mem_upper_mark` percent of the bucket quota. -/
theorem C1_isReduction_iff (env : RemoverEnv) (kv : KVBucket) :
    (isReductionInCheckpointMemoryNeeded env
        (getVBucketsTotalCheckpointMemoryUsage kv.vbMap)).1 = true ↔
      env.estimatedTotalMemoryUsed > env.cursorDroppingUThreshold ∨
      (env.estimatedTotalMemoryUsed ≥ env.memLowWat ∧
       getVBucketsTotalCheckpointMemoryUsage kv.vbMap ≥
         env.maxSize * env.cursorDroppingCheckpointMemUpperMark / 100) := by
  unfold isReductionInCheckpointMemoryNeeded
  by_cases h1 : env.estimatedTotalMemoryUsed > env.cursorDroppingUThreshold <;>
    by_cases h2 : env.estimatedTotalMemoryUsed ≥ env.memLowWat <;>
      by_cases h3 : getVBucketsTotalCheckpointMemoryUsage kv.vbMap ≥
        env.maxSize * env.cursorDroppingCheckpointMemUpperMark / 100 <;>
    simp [h1, h2, h3]

/-- The vbucket loop breaks as soon as `memoryCleared` has reached
`amountOfMemoryToClear`: no further vbucket is visited. -/
theorem attemptGo_target_met (kv : KVBucket) (mechanism : MemoryRecoveryMechanism)
    (amountOfMemoryToClear : Nat) (l : List (Nat × Nat)) (memoryCleared : Nat)
    (h : amountOfMemoryToClear ≤ memoryCleared) :
    attemptGo kv mechanism amountOfMemoryToClear l memoryCleared =
      (memoryCleared, []) := by
  cases l with
  | nil => rfl
  | cons p rest =>
    obtain ⟨vbid, m⟩ := p
    simp [attemptGo, h]

/-- C3: when recovery is triggered, the reclaim target is the estimated total
memory used minus a lower limit: minus
`(bucketQuota * cursor_dropping_checkpoint_mem_lower_mark) / 100` when the
checkpoint-memory trigger fired, and minus the `cursor_dropping_lower_mark`
threshold when only the total-memory trigger fired (exact integer arithmetic,
given that the memory used is at least the lower limit and below `2 ^ 64`). -/
theorem C3_recovery_target (env : RemoverEnv) (kv : KVBucket)
    (h64 : env.estimatedTotalMemoryUsed < 2 ^ 64) :
    (ckptMemTrigger env (getVBucketsTotalCheckpointMemoryUsage kv.vbMap) →
      env.maxSize * env.cursorDroppingCheckpointMemLowerMark / 100 ≤
        env.estimatedTotalMemoryUsed →
      (isReductionInCheckpointMemoryNeeded env
          (getVBucketsTotalCheckpointMemoryUsage kv.vbMap)).2 =
        env.estimatedTotalMemoryUsed -
          env.maxSize * env.cursorDroppingCheckpointMemLowerMark / 100) ∧
    (¬ ckptMemTrigger env (getVBucketsTotalCheckpointMemoryUsage kv.vbMap) →
      env.estimatedTotalMemoryUsed > env.cursorDroppingUThreshold →
      env.cursorDroppingLThreshold ≤ env.estimatedTotalMemoryUsed →
      (isReductionInCheckpointMemoryNeeded env
          (getVBucketsTotalCheckpointMemoryUsage kv.vbMap)).2 =
        env.estimatedTotalMemoryUsed - env.cursorDroppingLThreshold) := by
  constructor
  · intro htrig hle
    obtain ⟨h1, h2⟩ := htrig
    unfold isReductionInCheckpointMemoryNeeded
    simp only [ge_iff_le, gt_iff_lt, decide_eq_true_eq]
    rw [if_pos, if_pos]
    · exact usub_eq_sub _ _ hle h64
    · simp [h1, h2]
    · simp [h1, h2]
  · intro htrig hgt hle
    unfold ckptMemTrigger at htrig
    unfold isReductionInCheckpointMemoryNeeded
    simp only [ge_iff_le, gt_iff_lt, decide_eq_true_eq]
    rw [if_pos, if_neg]
    · exact usub_eq_sub _ _ hle h64
    · simpa using htrig
    · simp [hgt]

/-- Concrete remover environment used by witnesses: quota 1000 bytes,
checkpoint-mem marks 50% / 30%, 600 bytes used, low watermark 100,
upper/lower cursor-dropping thresholds 550 / 200, expel enabled. -/
def envA : RemoverEnv :=
  { maxSize := 1000
    cursorDroppingCheckpointMemUpperMark := 50
    cursorDroppingCheckpointMemLowerMark := 30
    estimatedTotalMemoryUsed := 600
    memLowWat := 100
    cursorDroppingUThreshold := 550
    cursorDroppingLThreshold := 200
    chkExpelEnabled := true }

/-- A vbucket with 500 bytes of checkpoint memory, an expel estimate of
40 bytes, two droppable cursors and a constant 100 bytes of unreferenced
checkpoint memory. -/
def vbA : VBucketData :=
  { chkMgrMem := 500
    expelResult := { expelCount := 7, estimateOfFreeMemory := 40 }
    cursorsToDrop := [1, 2]
    unrefMem := fun _ => 100 }

/-- A bucket holding only `vbA` as vbucket 0, every cursor-drop request
granted. -/
def kvA : KVBucket :=
  { vbMap := [(0, vbA)]
    lookup := fun vbid => if vbid = 0 then some vbA else none
    handleSlowStream := fun _ _ => true }

theorem C3_recovery_target_witness :
    (isReductionInCheckpointMemoryNeeded envA
        (getVBucketsTotalCheckpointMemoryUsage kvA.vbMap)).2 = 300 := by
  rw [(C3_recovery_target envA kvA (by decide)).1 (by decide) (by decide)]
  decide

/-- An environment in which neither recovery trigger holds: memory used is
below both the upper mark and the low watermark. -/
def envIdle : RemoverEnv :=
  { maxSize := 1000
    cursorDroppingCheckpointMemUpperMark := 50
    cursorDroppingCheckpointMemLowerMark := 30
    estimatedTotalMemoryUsed := 50
    memLowWat := 100
    cursorDroppingUThreshold := 550
    cursorDroppingLThreshold := 200
    chkExpelEnabled := true }

/-- C4 counterexample: with `envIdle` neither trigger condition holds, yet the
run still schedules the `CheckpointVisitor` (which invokes
`removeClosedUnrefCheckpoints` on the partitions): the visitor is scheduled on
every run in which the task is available (`checkpoint_remover.cc` lines
192-205 sit outside the `shouldReduceMemory` branch), refuting "no visitor is
scheduled". -/
theorem C4_visitor_always_scheduled_counterexample :
    (isReductionInCheckpointMemoryNeeded envIdle
        (getVBucketsTotalCheckpointMemoryUsage kvA.vbMap)).1 = false ∧
    runRemover envIdle kvA true = [RemoverEvent.visitorScheduled] := by
  constructor
  · decide
  · rfl

/-- C4 (amended): if neither trigger condition holds, no expel is attempted and
no cursor is dropped, but the visitor that invokes
`removeClosedUnrefCheckpoints` is still scheduled — the whole run trace is the
single visitor-scheduling event (and an unavailable run does nothing). -/
theorem C4_no_trigger_no_recovery (env : RemoverEnv) (kv : KVBucket)
    (h : (isReductionInCheckpointMemoryNeeded env
        (getVBucketsTotalCheckpointMemoryUsage kv.vbMap)).1 = false) :
    runRemover env kv true = [RemoverEvent.visitorScheduled] ∧
    runRemover env kv false = [] := by
  constructor
  · simp [runRemover, h]
  · rfl

theorem C4_no_trigger_no_recovery_witness :
    runRemover envIdle kvA true = [RemoverEvent.visitorScheduled] ∧
    runRemover envIdle kvA false = [] :=
  C4_no_trigger_no_recovery envIdle kvA (by decide)

/-- C9: a vbucket whose lookup yields null (the partition disappeared between
the snapshot of the vbucket map and the operation) is skipped: the recovery
loop behaves exactly as if that entry were absent, continues with the next
partitions, and completes. -/
theorem C9_missing_vbucket_skipped (kv : KVBucket)
    (mechanism : MemoryRecoveryMechanism) (amountOfMemoryToClear : Nat)
    (l1 l2 : List (Nat × Nat)) (vbid m memoryCleared : Nat)
    (h : kv.lookup vbid = none) :
    attemptGo kv mechanism amountOfMemoryToClear (l1 ++ (vbid, m) :: l2)
        memoryCleared =
      attemptGo kv mechanism amountOfMemoryToClear (l1 ++ l2) memoryCleared := by
  induction l1 generalizing memoryCleared with
  | nil =>
    by_cases hc : amountOfMemoryToClear ≤ memoryCleared
    · rw [List.nil_append, List.nil_append,
        attemptGo_target_met kv mechanism amountOfMemoryToClear _ _ hc,
        attemptGo_target_met kv mechanism amountOfMemoryToClear _ _ hc]
    · simp [attemptGo, hc, h]
  | cons p rest ih =>
    obtain ⟨vbid', m'⟩ := p
    by_cases hc : amountOfMemoryToClear ≤ memoryCleared
    · rw [List.cons_append,
        attemptGo_target_met kv mechanism amountOfMemoryToClear _ _ hc,
        attemptGo_target_met kv mechanism amountOfMemoryToClear _ _ hc]
    · cases hl : kv.lookup vbid' with
      | none => simp [attemptGo, hc, hl, ih]
      | some vb => simp [attemptGo, hc, hl, ih]

/-- A bucket in which vbucket 5 has disappeared: it is listed in the vbucket
map snapshot but `getVBucket` returns null for it. -/
def kvGone : KVBucket :=
  { vbMap := [(5, { chkMgrMem := 900
                    expelResult := { expelCount := 0, estimateOfFreeMemory := 0 }
                    cursorsToDrop := []
                    unrefMem := fun _ => 0 }), (0, vbA)]
    lookup := fun vbid => if vbid = 0 then some vbA else none
    handleSlowStream := fun _ _ => true }

theorem C9_missing_vbucket_skipped_witness :
    attemptGo kvGone MemoryRecoveryMechanism.checkpointExpel 300
        ([] ++ (5, 900) :: [(0, 500)]) 0 =
      attemptGo kvGone MemoryRecoveryMechanism.checkpointExpel 300
        ([] ++ [(0, 500)]) 0 :=
  C9_missing_vbucket_skipped kvGone MemoryRecoveryMechanism.checkpointExpel 300
    [] [(0, 500)] 5 900 0 rfl

/-- The vbuckets for which the trace records an expel call, in trace order. -/
def expelVbids (evs : List RemoverEvent) : List Nat :=
  evs.filterMap fun e =>
    match e with
    | .expelCalled v => some v
    | _ => none

/-- The vbuckets for which the trace records a `getListOfCursorsToDrop`
request, in trace order. -/
def requestedVbids (evs : List RemoverEvent) : List Nat :=
  evs.filterMap fun e =>
    match e with
    | .cursorsRequested v => some v
    | _ => none

theorem dropLoop_events_isDrop (hss : Nat → Nat → Bool) (vbid : Nat)
    (unrefMem : Nat → Nat) (amount : Nat) (cs : List Nat)
    (memoryCleared k : Nat) :
    ∀ e ∈ (dropLoop hss vbid unrefMem amount cs memoryCleared k).2,
      e.isDrop = true := by
  induction cs generalizing memoryCleared k with
  | nil => intro e he; simp [dropLoop] at he
  | cons c rest ih =>
    intro e he
    by_cases hc : memoryCleared < amount
    · by_cases hh : hss vbid c
      · simp only [dropLoop, if_pos hc, if_pos hh, List.mem_cons] at he
        rcases he with rfl | he
        · rfl
        · exact ih _ _ e he
      · simp only [dropLoop, if_pos hc, if_neg hh, List.mem_cons] at he
        rcases he with rfl | he
        · rfl
        · exact ih _ _ e he
    · simp [dropLoop, hc] at he

theorem dropLoop_requestedVbids (hss : Nat → Nat → Bool) (vbid : Nat)
    (unrefMem : Nat → Nat) (amount : Nat) (cs : List Nat)
    (memoryCleared k : Nat) :
    requestedVbids (dropLoop hss vbid unrefMem amount cs memoryCleared k).2 = [] := by
  induction cs generalizing memoryCleared k with
  | nil => simp [dropLoop, requestedVbids]
  | cons c rest ih =>
    by_cases hc : memoryCleared < amount
    · by_cases hh : hss vbid c
      · simp only [dropLoop, if_pos hc, if_pos hh]
        simpa [requestedVbids] using ih (memoryCleared + unrefMem k) (k + 1)
      · simp only [dropLoop, if_pos hc, if_neg hh]
        simpa [requestedVbids] using ih memoryCleared k
    · simp [dropLoop, hc, requestedVbids]

theorem attemptGo_expel_events (kv : KVBucket) (amount : Nat)
    (l : List (Nat × Nat)) (memoryCleared : Nat) :
    ∀ e ∈ (attemptGo kv MemoryRecoveryMechanism.checkpointExpel amount l
        memoryCleared).2, e.isExpel = true := by
  induction l generalizing memoryCleared with
  | nil => intro e he; simp [attemptGo] at he
  | cons p rest ih =>
    obtain ⟨vbid, m⟩ := p
    intro e he
    by_cases hc : memoryCleared ≥ amount
    · simp [attemptGo, hc] at he
    · cases hl : kv.lookup vbid with
      | none =>
        simp only [attemptGo, if_neg hc, hl] at he
        exact ih _ e he
      | some vb =>
        simp only [attemptGo, if_neg hc, hl, recoverVB, List.cons_append,
          List.nil_append, List.mem_cons] at he
        rcases he with rfl | he
        · rfl
        · exact ih _ e he

theorem attemptGo_drop_events (kv : KVBucket) (amount : Nat)
    (l : List (Nat × Nat)) (memoryCleared : Nat) :
    ∀ e ∈ (attemptGo kv MemoryRecoveryMechanism.cursorDrop amount l
        memoryCleared).2, e.isDrop = true := by
  induction l generalizing memoryCleared with
  | nil => intro e he; simp [attemptGo] at he
  | cons p rest ih =>
    obtain ⟨vbid, m⟩ := p
    intro e he
    by_cases hc : memoryCleared ≥ amount
    · simp [attemptGo, hc] at he
    · cases hl : kv.lookup vbid with
      | none =>
        simp only [attemptGo, if_neg hc, hl] at he
        exact ih _ e he
      | some vb =>
        simp only [attemptGo, if_neg hc, hl, recoverVB, List.cons_append,
          List.mem_cons, List.mem_append] at he
        rcases he with rfl | he | he
        · rfl
        · exact dropLoop_events_isDrop kv.handleSlowStream vbid vb.unrefMem
            amount vb.cursorsToDrop memoryCleared 0 e he
        · exact ih _ e he

theorem attemptGo_expelVbids_sublist (kv : KVBucket) (amount : Nat)
    (l : List (Nat × Nat)) (memoryCleared : Nat) :
    List.Sublist
      (expelVbids (attemptGo kv MemoryRecoveryMechanism.checkpointExpel amount l
        memoryCleared).2)
      (l.map Prod.fst) := by
  induction l generalizing memoryCleared with
  | nil => simp [attemptGo, expelVbids]
  | cons p rest ih =>
    obtain ⟨vbid, m⟩ := p
    by_cases hc : memoryCleared ≥ amount
    · simp [attemptGo, hc, expelVbids]
    · cases hl : kv.lookup vbid with
      | none =>
        simp only [attemptGo, if_neg hc, hl, List.map_cons]
        exact (ih memoryCleared).cons vbid
      | some vb =>
        simp only [attemptGo, if_neg hc, hl, recoverVB, List.cons_append,
          List.nil_append, List.map_cons]
        have : expelVbids (RemoverEvent.expelCalled vbid ::
            (attemptGo kv MemoryRecoveryMechanism.checkpointExpel amount rest
              (memoryCleared + vb.expelResult.estimateOfFreeMemory)).2) =
            vbid :: expelVbids (attemptGo kv
              MemoryRecoveryMechanism.checkpointExpel amount rest
              (memoryCleared + vb.expelResult.estimateOfFreeMemory)).2 := by
          simp [expelVbids]
        rw [this]
        exact (ih _).cons₂ vbid

theorem attemptGo_requestedVbids_sublist (kv : KVBucket) (amount : Nat)
    (l : List (Nat × Nat)) (memoryCleared : Nat) :
    List.Sublist
      (requestedVbids (attemptGo kv MemoryRecoveryMechanism.cursorDrop amount l
        memoryCleared).2)
      (l.map Prod.fst) := by
  induction l generalizing memoryCleared with
  | nil => simp [attemptGo, requestedVbids]
  | cons p rest ih =>
    obtain ⟨vbid, m⟩ := p
    by_cases hc : memoryCleared ≥ amount
    · simp [attemptGo, hc, requestedVbids]
    · cases hl : kv.lookup vbid with
      | none =>
        simp only [attemptGo, if_neg hc, hl, List.map_cons]
        exact (ih memoryCleared).cons vbid
      | some vb =>
        simp only [attemptGo, if_neg hc, hl, recoverVB, List.cons_append,
          List.map_cons]
        have : requestedVbids (RemoverEvent.cursorsRequested vbid ::
            ((dropLoop kv.handleSlowStream vbid vb.unrefMem amount
                vb.cursorsToDrop memoryCleared 0).2 ++
              (attemptGo kv MemoryRecoveryMechanism.cursorDrop amount rest
                (dropLoop kv.handleSlowStream vbid vb.unrefMem amount
                  vb.cursorsToDrop memoryCleared 0).1).2)) =
            vbid :: requestedVbids (attemptGo kv
              MemoryRecoveryMechanism.cursorDrop amount rest
              (dropLoop kv.handleSlowStream vbid vb.unrefMem amount
                vb.cursorsToDrop memoryCleared 0).1).2 := by
          have hnil := dropLoop_requestedVbids kv.handleSlowStream vbid
            vb.unrefMem amount vb.cursorsToDrop memoryCleared 0
          simp only [requestedVbids] at hnil ⊢
          simp [List.filterMap_append, hnil]
        rw [this]
        exact (ih _).cons₂ vbid

/-- The phase structure that claim C2 asserts of a remover run with recovery
triggered and expel enabled: the run trace splits into an expel phase, a
cursor-drop phase and the visitor scheduling; the expel phase is exactly
`attemptMemoryRecovery(checkpointExpel, amount)`; each phase visits a
subsequence of the vbucket list sorted by checkpoint memory descending; the
cursor-drop phase exists only when the expel phase left the target unmet, and
then recovers `amount - recovered`; and any visiting loop stops as soon as
the target is met. -/
def removerRunPhaseStructure (env : RemoverEnv) (kv : KVBucket) : Prop :=
  ∃ amount recovered expelTrace dropTrace,
    amount = (isReductionInCheckpointMemoryNeeded env
      (getVBucketsTotalCheckpointMemoryUsage kv.vbMap)).2 ∧
    (recovered, expelTrace) =
      attemptMemoryRecovery kv MemoryRecoveryMechanism.checkpointExpel amount ∧
    runRemover env kv true =
      expelTrace ++ dropTrace ++ [RemoverEvent.visitorScheduled] ∧
    (∀ e ∈ expelTrace, e.isExpel = true) ∧
    (∀ e ∈ dropTrace, e.isDrop = true) ∧
    List.Sublist (expelVbids expelTrace)
      ((getVBucketsSortedByChkMgrMem kv.vbMap).map Prod.fst) ∧
    List.Sublist (requestedVbids dropTrace)
      ((getVBucketsSortedByChkMgrMem kv.vbMap).map Prod.fst) ∧
    List.Sorted (fun a b => b.2 ≤ a.2) (getVBucketsSortedByChkMgrMem kv.vbMap) ∧
    (recovered < amount →
      dropTrace = (attemptMemoryRecovery kv MemoryRecoveryMechanism.cursorDrop
        (usub amount recovered)).2) ∧
    (amount ≤ recovered → dropTrace = []) ∧
    (∀ mechanism l memoryCleared, amount ≤ memoryCleared →
      attemptGo kv mechanism amount l memoryCleared = (memoryCleared, []))

/-- C2: on a remover run that decides recovery is needed (expel enabled), the
partitions are visited in the order of `getVBucketsSortedByChkMgrMem`, which
is sorted by checkpoint memory usage descending; the whole expel phase
(subtracting its recovered estimate from the target) precedes every
cursor-drop action, so for each partition its expel precedes its cursor drop;
cursor drop happens only if the target is still unmet after the expel phase
(hence after that partition's own expel); and every visiting loop stops once
the target is met. -/
theorem C2_run_structure (env : RemoverEnv) (kv : KVBucket)
    (hneed : (isReductionInCheckpointMemoryNeeded env
        (getVBucketsTotalCheckpointMemoryUsage kv.vbMap)).1 = true)
    (hexpel : env.chkExpelEnabled = true) :
    removerRunPhaseStructure env kv := by
  have hsorted : List.Sorted (fun a b => b.2 ≤ a.2)
      (getVBucketsSortedByChkMgrMem kv.vbMap) := by
    haveI : IsTotal (Nat × Nat) (fun a b => b.2 ≤ a.2) :=
      ⟨fun a b => Nat.le_total b.2 a.2⟩
    haveI : IsTrans (Nat × Nat) (fun a b => b.2 ≤ a.2) :=
      ⟨fun _ _ _ hab hbc => Nat.le_trans hbc hab⟩
    exact List.sorted_insertionSort _ _
  refine ⟨(isReductionInCheckpointMemoryNeeded env
      (getVBucketsTotalCheckpointMemoryUsage kv.vbMap)).2,
    (attemptMemoryRecovery kv MemoryRecoveryMechanism.checkpointExpel
      (isReductionInCheckpointMemoryNeeded env
        (getVBucketsTotalCheckpointMemoryUsage kv.vbMap)).2).1,
    (attemptMemoryRecovery kv MemoryRecoveryMechanism.checkpointExpel
      (isReductionInCheckpointMemoryNeeded env
        (getVBucketsTotalCheckpointMemoryUsage kv.vbMap)).2).2,
    ?_, rfl, rfl, ?_, ?_, ?_, ?_, ?_, hsorted, ?_, ?_, ?_⟩
  case _ =>
    exact if (attemptMemoryRecovery kv MemoryRecoveryMechanism.checkpointExpel
        (isReductionInCheckpointMemoryNeeded env
          (getVBucketsTotalCheckpointMemoryUsage kv.vbMap)).2).1 <
        (isReductionInCheckpointMemoryNeeded env
          (getVBucketsTotalCheckpointMemoryUsage kv.vbMap)).2 then
      (attemptMemoryRecovery kv MemoryRecoveryMechanism.cursorDrop
        (usub (isReductionInCheckpointMemoryNeeded env
            (getVBucketsTotalCheckpointMemoryUsage kv.vbMap)).2
          (attemptMemoryRecovery kv MemoryRecoveryMechanism.checkpointExpel
            (isReductionInCheckpointMemoryNeeded env
              (getVBucketsTotalCheckpointMemoryUsage kv.vbMap)).2).1)).2
    else []
  case _ =>
    by_cases h : (attemptMemoryRecovery kv MemoryRecoveryMechanism.checkpointExpel
        (isReductionInCheckpointMemoryNeeded env
          (getVBucketsTotalCheckpointMemoryUsage kv.vbMap)).2).1 <
        (isReductionInCheckpointMemoryNeeded env
          (getVBucketsTotalCheckpointMemoryUsage kv.vbMap)).2
    · simp [runRemover, hneed, hexpel, h]
    · simp [runRemover, hneed, hexpel, h]
  case _ =>
    exact attemptGo_expel_events kv _ _ 0
  case _ =>
    by_cases h : (attemptMemoryRecovery kv MemoryRecoveryMechanism.checkpointExpel
        (isReductionInCheckpointMemoryNeeded env
          (getVBucketsTotalCheckpointMemoryUsage kv.vbMap)).2).1 <
        (isReductionInCheckpointMemoryNeeded env
          (getVBucketsTotalCheckpointMemoryUsage kv.vbMap)).2
    · simp only [if_pos h]
      exact attemptGo_drop_events kv _ _ 0
    · simp [if_neg h]
  case _ =>
    exact attemptGo_expelVbids_sublist kv _ _ 0
  case _ =>
    by_cases h : (attemptMemoryRecovery kv MemoryRecoveryMechanism.checkpointExpel
        (isReductionInCheckpointMemoryNeeded env
          (getVBucketsTotalCheckpointMemoryUsage kv.vbMap)).2).1 <
        (isReductionInCheckpointMemoryNeeded env
          (getVBucketsTotalCheckpointMemoryUsage kv.vbMap)).2
    · simp only [if_pos h]
      exact attemptGo_requestedVbids_sublist kv _ _ 0
    · simp [if_neg h, requestedVbids]
  case _ =>
    intro h
    simp [if_pos h]
  case _ =>
    intro h
    rw [if_neg (Nat.not_lt.mpr h)]
  case _ =>
    intro mechanism l memoryCleared h
    exact attemptGo_target_met kv mechanism _ l memoryCleared h

theorem C2_run_structure_witness : removerRunPhaseStructure envA kvA :=
  C2_run_structure envA kvA (by decide) rfl

/-- The number of bytes the cursor-drop loop accumulates over the given
cursors when `k` cursors have already been dropped successfully: for each
cursor whose `handleSlowStream` call returns `true` it adds the vbucket's
unreferenced-checkpoint memory as read at that moment. -/
def dropGainAux (hss : Nat → Nat → Bool) (vbid : Nat) (unrefMem : Nat → Nat) :
    List Nat → Nat → Nat
  | [], _ => 0
  | c :: rest, k =>
    if hss vbid c then unrefMem k + dropGainAux hss vbid unrefMem rest (k + 1)
    else dropGainAux hss vbid unrefMem rest k

theorem dropLoop_characterization (hss : Nat → Nat → Bool) (vbid : Nat)
    (unrefMem : Nat → Nat) (amount : Nat) (cs : List Nat)
    (memoryCleared k : Nat) :
    ∃ n, n ≤ cs.length ∧
      (dropLoop hss vbid unrefMem amount cs memoryCleared k).2 =
        (cs.take n).map
          (fun c => RemoverEvent.slowStreamHandled vbid c (hss vbid c)) ∧
      (dropLoop hss vbid unrefMem amount cs memoryCleared k).1 =
        memoryCleared + dropGainAux hss vbid unrefMem (cs.take n) k ∧
      (∀ m, m < n →
        memoryCleared + dropGainAux hss vbid unrefMem (cs.take m) k < amount) ∧
      (n < cs.length →
        amount ≤ memoryCleared + dropGainAux hss vbid unrefMem (cs.take n) k) := by
  induction cs generalizing memoryCleared k with
  | nil =>
    exact ⟨0, Nat.le_refl 0, rfl, by simp [dropLoop, dropGainAux],
      fun m hm => absurd hm (Nat.not_lt_zero m), fun h => absurd h (by simp)⟩
  | cons c rest ih =>
    by_cases hc : memoryCleared < amount
    · by_cases hh : hss vbid c
      · obtain ⟨n, hn, hev, hval, hlt, hstop⟩ := ih (memoryCleared + unrefMem k) (k + 1)
        exact ⟨n + 1, by simpa using Nat.succ_le_succ hn, by
            simp only [dropLoop, if_pos hc, if_pos hh, List.take_succ_cons,
              List.map_cons, hh]
            exact congrArg _ hev, by
            simp only [dropLoop, if_pos hc, if_pos hh, List.take_succ_cons,
              dropGainAux, if_pos hh, hval]
            omega, by
            intro m hm
            cases m with
            | zero => simpa [dropGainAux] using hc
            | succ m' =>
              have := hlt m' (Nat.lt_of_succ_lt_succ hm)
              simp only [List.take_succ_cons, dropGainAux, if_pos hh]
              omega, by
            intro hlen
            have := hstop (Nat.lt_of_succ_lt_succ (by simpa using hlen))
            simp only [List.take_succ_cons, dropGainAux, if_pos hh]
            omega⟩
      · obtain ⟨n, hn, hev, hval, hlt, hstop⟩ := ih memoryCleared k
        exact ⟨n + 1, by simpa using Nat.succ_le_succ hn, by
            simp only [dropLoop, if_pos hc, if_neg hh, List.take_succ_cons,
              List.map_cons]
            rw [Bool.not_eq_true] at hh
            rw [hh]
            exact congrArg _ hev, by
            simp only [dropLoop, if_pos hc, if_neg hh, List.take_succ_cons,
              dropGainAux, if_neg hh, hval], by
            intro m hm
            cases m with
            | zero => simpa [dropGainAux] using hc
            | succ m' =>
              have := hlt m' (Nat.lt_of_succ_lt_succ hm)
              simp only [List.take_succ_cons, dropGainAux, if_neg hh]
              omega, by
            intro hlen
            have := hstop (Nat.lt_of_succ_lt_succ (by simpa using hlen))
            simp only [List.take_succ_cons, dropGainAux, if_neg hh]
            omega⟩
    · exact ⟨0, Nat.zero_le _, by simp [dropLoop, hc], by
        simp [dropLoop, hc, dropGainAux],
        fun m hm => absurd hm (Nat.not_lt_zero m), by
        intro _
        simpa [dropGainAux] using Nat.le_of_not_lt hc⟩

/-- C6: during cursor drop on one vbucket, the hook
`handleSlowStream(vbid, cursor)` is invoked exactly for a prefix of the
cursors returned by `getListOfCursorsToDrop`, each invocation recorded with
its result; the unreferenced-checkpoint memory is added to the cleared total
exactly for the invocations that returned `true` (`dropGainAux`); every
processed cursor was processed while the target was still unmet; and as soon
as the target is met no further cursor of the list is processed. -/
theorem C6_cursor_drop_protocol (kv : KVBucket) (vbid : Nat) (vb : VBucketData)
    (amount memoryCleared : Nat) :
    ∃ n, n ≤ vb.cursorsToDrop.length ∧
      (recoverVB kv MemoryRecoveryMechanism.cursorDrop amount vbid vb
          memoryCleared).2 =
        RemoverEvent.cursorsRequested vbid ::
          (vb.cursorsToDrop.take n).map
            (fun c => RemoverEvent.slowStreamHandled vbid c
              (kv.handleSlowStream vbid c)) ∧
      (recoverVB kv MemoryRecoveryMechanism.cursorDrop amount vbid vb
          memoryCleared).1 =
        memoryCleared + dropGainAux kv.handleSlowStream vbid vb.unrefMem
          (vb.cursorsToDrop.take n) 0 ∧
      (∀ m, m < n →
        memoryCleared + dropGainAux kv.handleSlowStream vbid vb.unrefMem
          (vb.cursorsToDrop.take m) 0 < amount) ∧
      (n < vb.cursorsToDrop.length →
        amount ≤ memoryCleared + dropGainAux kv.handleSlowStream vbid
          vb.unrefMem (vb.cursorsToDrop.take n) 0) := by
  obtain ⟨n, hn, hev, hval, hlt, hstop⟩ :=
    dropLoop_characterization kv.handleSlowStream vbid vb.unrefMem amount
      vb.cursorsToDrop memoryCleared 0
  exact ⟨n, hn, by simp only [recoverVB, hev], by simp only [recoverVB, hval],
    hlt, hstop⟩

/-- C10: when a vbucket offers two droppable cursors and both
`handleSlowStream` calls succeed before the target is met, the cleared total
grows by the vbucket's unreferenced-checkpoint memory once per dropped cursor
(as read at each drop), not once overall: bytes still unreferenced at the
second read are counted twice. -/
theorem C10_unref_mem_counted_per_cursor (kv : KVBucket) (vbid : Nat)
    (vb : VBucketData) (c1 c2 : Nat) (amount memoryCleared : Nat)
    (hcs : vb.cursorsToDrop = [c1, c2])
    (h1 : kv.handleSlowStream vbid c1 = true)
    (h2 : kv.handleSlowStream vbid c2 = true)
    (hlt0 : memoryCleared < amount)
    (hlt1 : memoryCleared + vb.unrefMem 0 < amount) :
    (recoverVB kv MemoryRecoveryMechanism.cursorDrop amount vbid vb
        memoryCleared).1 =
      memoryCleared + vb.unrefMem 0 + vb.unrefMem 1 := by
  simp [recoverVB, hcs, dropLoop, h1, h2, hlt0, hlt1]

theorem C10_unref_mem_counted_per_cursor_witness :
    (recoverVB kvA MemoryRecoveryMechanism.cursorDrop 1000 0 vbA 0).1 = 200 := by
  rw [C10_unref_mem_counted_per_cursor kvA 0 vbA 1 2 1000 0 rfl rfl rfl
    (by decide) (by decide)]
  decide

/-- The inputs of `PagingVisitor::removeClosedUnrefCheckpoints(VBucket&)`
(`paging_visitor.cc` lines 336-347): the vbucket id, the vbucket's high
seqno, and the two outputs of
`CheckpointManager::removeClosedUnrefCheckpoints` (whose implementation is
external to this embedding): the number of purged items and the
`newOpenCheckpointCreated` out-flag. -/
structure PagingVisitorEnv where
  vbid : Nat
  highSeqno : Nat
  removed : Nat
  newCheckpointCreated : Bool

/-- Observable actions of `PagingVisitor::removeClosedUnrefCheckpoints`. -/
inductive PagingVisitorEvent where
  | itemsRemovedFromCheckpointsAdded (n : Nat)
  | notifyVBConnections (vbid seqno : Nat)
  deriving DecidableEq, Repr

/-- `PagingVisitor::removeClosedUnrefCheckpoints` (`paging_visitor.cc` lines
336-347): call the manager's `removeClosedUnrefCheckpoints`, add the purged
count to `stats.itemsRemovedFromCheckpoints`, and, only if a new open
checkpoint was created, notify the vbucket's DCP connections with the
vbucket's high seqno. -/
def pagingVisitorRemoveClosedUnrefCheckpoints (env : PagingVisitorEnv) :
    List PagingVisitorEvent :=
  PagingVisitorEvent.itemsRemovedFromCheckpointsAdded env.removed ::
    (if env.newCheckpointCreated then
      [PagingVisitorEvent.notifyVBConnections env.vbid env.highSeqno]
    else
      [])

/-- C8: the paging visitor invokes `notifyVBConnections` iff the removal of
closed unreferenced checkpoints created a new open checkpoint, and every such
notification carries the partition's id and high seqno. -/
theorem C8_notify_iff_new_checkpoint (env : PagingVisitorEnv) :
    ((∃ s, PagingVisitorEvent.notifyVBConnections env.vbid s ∈
        pagingVisitorRemoveClosedUnrefCheckpoints env) ↔
      env.newCheckpointCreated = true) ∧
    (∀ v s, PagingVisitorEvent.notifyVBConnections v s ∈
        pagingVisitorRemoveClosedUnrefCheckpoints env →
      v = env.vbid ∧ s = env.highSeqno) := by
  cases h : env.newCheckpointCreated with
  | false =>
    constructor
    · constructor
      · rintro ⟨s, hs⟩
        simp [pagingVisitorRemoveClosedUnrefCheckpoints, h] at hs
      · intro hc
        exact absurd hc (by simp)
    · intro v s hs
      simp [pagingVisitorRemoveClosedUnrefCheckpoints, h] at hs
  | true =>
    constructor
    · constructor
      · intro _
        rfl
      · intro _
        exact ⟨env.highSeqno,
          by simp [pagingVisitorRemoveClosedUnrefCheckpoints, h]⟩
    · intro v s hs
      simp only [pagingVisitorRemoveClosedUnrefCheckpoints, h, if_true,
        List.mem_cons] at hs
      rcases hs with hs | hs | hs
      · exact absurd hs (by simp)
      · injection hs with h1 h2
        exact ⟨h1, h2⟩
      · simp at hs

/-- Checkpoint classification (`CheckpointType` in `checkpoint_types.h`). -/
inductive CheckpointType where
  | Memory
  | Disk
  deriving DecidableEq, Repr

/-- A queued item as the drain logic sees it: its `bySeqno` and whether it is
a meta item (`checkpoint_start`, `checkpoint_end`, `set_vbucket_state`,
`empty`). -/
structure MItem where
  bySeqno : Nat
  isMetaItem : Bool
  deriving DecidableEq, Repr

/-- A checkpoint as the drain logic sees it: its type, snapshot range and item
sequence. -/
structure MCheckpoint where
  ctype : CheckpointType
  snapStart : Nat
  snapEnd : Nat
  items : List MItem
  deriving DecidableEq, Repr

/-- Number of non-meta items in an item sequence. -/
def numNonMetaItems (items : List MItem) : Nat :=
  (items.filter fun i => !i.isMetaItem).length

/-- Total number of non-meta items over a sequence of checkpoints. -/
def cumNonMeta (ckpts : List MCheckpoint) : Nat :=
  (ckpts.map fun c => numNonMetaItems c.items).sum

theorem cumNonMeta_nil : cumNonMeta [] = 0 := rfl

theorem cumNonMeta_cons (c : MCheckpoint) (l : List MCheckpoint) :
    cumNonMeta (c :: l) = numNonMetaItems c.items + cumNonMeta l := by
  simp [cumNonMeta]

/-- Placeholder checkpoint used as the default of positional lookups. -/
def dummyCkpt : MCheckpoint :=
  { ctype := CheckpointType.Memory, snapStart := 0, snapEnd := 0, items := [] }

/-- Modelled from the spec: the walk of
`CheckpointManager::getItemsForCursor` past the cursor's own checkpoint
(`checkpoint_manager.cc` is not under `src/`).  `t` is the type of the
checkpoint the cursor starts in and `count` the number of non-meta items
drained so far.  Per the spec, at each `checkpoint_end` the cursor advances
into the next checkpoint only if that checkpoint has the same type and the
first boundary at or after `approxLimit` non-meta items has not yet been
reached; checkpoints are never truncated in the middle. -/
def getItemsForCursorGo (t : CheckpointType) (approxLimit : Nat) :
    List MCheckpoint → Nat → List MItem
  | [], _ => []
  | c :: rest, count =>
    if approxLimit ≤ count ∨ c.ctype ≠ t then []
    else
      c.items ++
        getItemsForCursorGo t approxLimit rest (count + numNonMetaItems c.items)

/-- Modelled from the spec: `CheckpointManager::getItemsForCursor(cursor,
items, approxLimit)` for a cursor standing at the start of the first of the
given checkpoints (`checkpoint_manager.cc` is not under `src/`; the header
contract in `checkpoint_manager.h` lines 202-222 documents stopping on a
checkpoint boundary at or past `approxLimit` and fetching only contiguous
checkpoints of the same type). -/
def getItemsForCursor (ckpts : List MCheckpoint) (approxLimit : Nat) :
    List MItem :=
  match ckpts with
  | [] => []
  | c :: rest =>
    c.items ++
      getItemsForCursorGo c.ctype approxLimit rest (numNonMetaItems c.items)

/-- Modelled from the spec: the walk of
`CheckpointManager::getNextItemsForCursor` (the unbounded drain) past the
cursor's own checkpoint: it advances across a boundary only into a checkpoint
of the same type. -/
def getNextItemsForCursorGo (t : CheckpointType) : List MCheckpoint → List MItem
  | [] => []
  | c :: rest =>
    if c.ctype ≠ t then [] else c.items ++ getNextItemsForCursorGo t rest

/-- Modelled from the spec: `CheckpointManager::getNextItemsForCursor` for a
cursor standing at the start of the first of the given checkpoints
(`checkpoint_manager.h` lines 177-187: fetches all outstanding items, but only
for contiguous checkpoints of the same type). -/
def getNextItemsForCursor (ckpts : List MCheckpoint) : List MItem :=
  match ckpts with
  | [] => []
  | c :: rest => c.items ++ getNextItemsForCursorGo c.ctype rest

theorem getItemsForCursorGo_spec (t : CheckpointType) (approxLimit : Nat)
    (rest : List MCheckpoint) :
    ∀ count : Nat,
      ∃ k, k ≤ rest.length ∧
        getItemsForCursorGo t approxLimit rest count =
          ((rest.take k).map MCheckpoint.items).flatten ∧
        (∀ j, j < k →
          count + cumNonMeta (rest.take j) < approxLimit ∧
          (rest.getD j dummyCkpt).ctype = t) ∧
        (k < rest.length →
          approxLimit ≤ count + cumNonMeta (rest.take k) ∨
          (rest.getD k dummyCkpt).ctype ≠ t) := by
  induction rest with
  | nil =>
    intro count
    exact ⟨0, Nat.le_refl 0, rfl, fun j hj => absurd hj (Nat.not_lt_zero j),
      fun h => absurd h (by simp)⟩
  | cons c rest ih =>
    intro count
    by_cases hstop : approxLimit ≤ count ∨ c.ctype ≠ t
    · refine ⟨0, Nat.zero_le _, by simp [getItemsForCursorGo, hstop],
        fun j hj => absurd hj (Nat.not_lt_zero j), ?_⟩
      intro _
      simpa [cumNonMeta] using hstop
    · push_neg at hstop
      obtain ⟨hcount, htype⟩ := hstop
      obtain ⟨k, hk, hval, hacc, hstop'⟩ := ih (count + numNonMetaItems c.items)
      refine ⟨k + 1, Nat.succ_le_succ hk, ?_, ?_, ?_⟩
      · have hcond : ¬ (approxLimit ≤ count ∨ c.ctype ≠ t) := by
          push_neg
          exact ⟨hcount, htype⟩
        simp only [getItemsForCursorGo, if_neg hcond, hval,
          List.take_succ_cons, List.map_cons, List.flatten_cons]
      · intro j hj
        cases j with
        | zero =>
          refine ⟨by simpa [cumNonMeta] using hcount, by simpa using htype⟩
        | succ j' =>
          obtain ⟨hc', ht'⟩ := hacc j' (Nat.lt_of_succ_lt_succ hj)
          refine ⟨?_, by simpa using ht'⟩
          rw [List.take_succ_cons, cumNonMeta_cons]
          omega
      · intro hlen
        rcases hstop' (Nat.lt_of_succ_lt_succ (by simpa using hlen)) with h | h
        · left
          rw [List.take_succ_cons, cumNonMeta_cons]
          omega
        · right
          simpa using h

theorem getNextItemsForCursorGo_spec (t : CheckpointType)
    (rest : List MCheckpoint) :
    ∃ k, k ≤ rest.length ∧
      getNextItemsForCursorGo t rest =
        ((rest.take k).map MCheckpoint.items).flatten ∧
      (∀ j, j < k → (rest.getD j dummyCkpt).ctype = t) ∧
      (k < rest.length → (rest.getD k dummyCkpt).ctype ≠ t) := by
  induction rest with
  | nil =>
    exact ⟨0, Nat.le_refl 0, rfl, fun j hj => absurd hj (Nat.not_lt_zero j),
      fun h => absurd h (by simp)⟩
  | cons c rest ih =>
    by_cases htype : c.ctype ≠ t
    · exact ⟨0, Nat.zero_le _, by simp [getNextItemsForCursorGo, htype],
        fun j hj => absurd hj (Nat.not_lt_zero j), fun _ => by simpa using htype⟩
    · push_neg at htype
      obtain ⟨k, hk, hval, hacc, hstop⟩ := ih
      refine ⟨k + 1, Nat.succ_le_succ hk, ?_, ?_, ?_⟩
      · have hcond : ¬ c.ctype ≠ t := by
          push_neg
          exact htype
        simp only [getNextItemsForCursorGo, if_neg hcond, hval,
          List.take_succ_cons, List.map_cons, List.flatten_cons]
      · intro j hj
        cases j with
        | zero => simpa using htype
        | succ j' => simpa using hacc j' (Nat.lt_of_succ_lt_succ hj)
      · intro hlen
        simpa using hstop (Nat.lt_of_succ_lt_succ (by simpa using hlen))

/-- C5: for a cursor at the start of checkpoint `c0`, the bounded drain
returns a concatenation of whole checkpoints — it never truncates in the
middle of one — stopping at the first boundary at or after `approxLimit`
non-meta items: every boundary it crosses had fewer than `approxLimit`
non-meta items drained and led into a checkpoint of the same type, and when
it stops before the end the boundary either meets the limit or changes the
Memory/Disk type.  The unbounded drain `getNextItemsForCursor` likewise
fetches whole checkpoints of the cursor's type only, stopping at a type
change even though it has no limit. -/
theorem C5_drain_checkpoint_granularity (c0 : MCheckpoint)
    (rest : List MCheckpoint) (approxLimit : Nat) :
    (∃ k, 1 ≤ k ∧ k ≤ (c0 :: rest).length ∧
      getItemsForCursor (c0 :: rest) approxLimit =
        (((c0 :: rest).take k).map MCheckpoint.items).flatten ∧
      (∀ j, 1 ≤ j → j < k →
        cumNonMeta ((c0 :: rest).take j) < approxLimit ∧
        ((c0 :: rest).getD j dummyCkpt).ctype = c0.ctype) ∧
      (k < (c0 :: rest).length →
        approxLimit ≤ cumNonMeta ((c0 :: rest).take k) ∨
        ((c0 :: rest).getD k dummyCkpt).ctype ≠ c0.ctype)) ∧
    (∃ k, 1 ≤ k ∧ k ≤ (c0 :: rest).length ∧
      getNextItemsForCursor (c0 :: rest) =
        (((c0 :: rest).take k).map MCheckpoint.items).flatten ∧
      (∀ j, 1 ≤ j → j < k →
        ((c0 :: rest).getD j dummyCkpt).ctype = c0.ctype) ∧
      (k < (c0 :: rest).length →
        ((c0 :: rest).getD k dummyCkpt).ctype ≠ c0.ctype)) := by
  constructor
  · obtain ⟨k, hk, hval, hacc, hstop⟩ :=
      getItemsForCursorGo_spec c0.ctype approxLimit rest
        (numNonMetaItems c0.items)
    refine ⟨k + 1, Nat.succ_le_succ (Nat.zero_le k),
      by simpa using Nat.succ_le_succ hk, ?_, ?_, ?_⟩
    · simp only [getItemsForCursor, hval, List.take_succ_cons, List.map_cons,
        List.flatten_cons]
    · intro j hj1 hjk
      cases j with
      | zero => exact absurd hj1 (by simp)
      | succ j' =>
        obtain ⟨hc', ht'⟩ := hacc j' (Nat.lt_of_succ_lt_succ hjk)
        refine ⟨?_, by simpa using ht'⟩
        rw [List.take_succ_cons, cumNonMeta_cons]
        omega
    · intro hlen
      rcases hstop (Nat.lt_of_succ_lt_succ (by simpa using hlen)) with h | h
      · left
        rw [List.take_succ_cons, cumNonMeta_cons]
        omega
      · right
        simpa using h
  · obtain ⟨k, hk, hval, hacc, hstop⟩ :=
      getNextItemsForCursorGo_spec c0.ctype rest
    refine ⟨k + 1, Nat.succ_le_succ (Nat.zero_le k),
      by simpa using Nat.succ_le_succ hk, ?_, ?_, ?_⟩
    · simp only [getNextItemsForCursor, hval, List.take_succ_cons,
        List.map_cons, List.flatten_cons]
    · intro j hj1 hjk
      cases j with
      | zero => exact absurd hj1 (by simp)
      | succ j' => simpa using hacc j' (Nat.lt_of_succ_lt_succ hjk)
    · intro hlen
      simpa using hstop (Nat.lt_of_succ_lt_succ (by simpa using hlen))

/-- Result of `CheckpointManager::registerCursorBySeqno`
(`checkpoint_manager.h` lines 134-144): the seqno with which the cursor can
start and the backfill flag. -/
structure CursorRegResult where
  seqno : Nat
  tryBackfill : Bool
  deriving DecidableEq, Repr

/-- The `bySeqno` of the first non-meta item in the given log order whose
seqno is strictly greater than `s`, if any. -/
def firstSeqnoAbove (s : Nat) : List MItem → Option Nat
  | [] => none
  | i :: rest =>
    if i.isMetaItem = false ∧ s < i.bySeqno then some i.bySeqno
    else firstSeqnoAbove s rest

/-- Modelled from the spec: the checkpoint scan of
`CheckpointManager::registerCursorBySeqno` (`checkpoint_manager.cc` is not
under `src/`).  Skip the checkpoints that end before `startBySeqno`; the
cursor is positioned in the first remaining checkpoint at the first item with
`bySeqno > startBySeqno`, so the seqno it next observes is the first such
item of the remaining log — or `lastBySeqno + 1` when it is placed at the end
and will observe nothing until new items arrive. -/
def regScan (lastBySeqno s : Nat) : List MCheckpoint → Nat
  | [] => lastBySeqno + 1
  | c :: rest =>
    if c.snapEnd < s then regScan lastBySeqno s rest
    else
      match firstSeqnoAbove s (((c :: rest).map MCheckpoint.items).flatten) with
      | some q => q
      | none => lastBySeqno + 1

/-- Modelled from the spec: `CheckpointManager::registerCursorBySeqno(name,
startBySeqno)` (`checkpoint_manager.cc` is not under `src/`).  Returns the
seqno from which the cursor will next observe items and `tryBackfill`, true
iff `startBySeqno` precedes the earliest snapshot the manager still retains
(the `snapStart` of the oldest checkpoint). -/
def registerCursorBySeqno (ckpts : List MCheckpoint)
    (lastBySeqno startBySeqno : Nat) : CursorRegResult :=
  { seqno := regScan lastBySeqno startBySeqno ckpts
    tryBackfill :=
      match ckpts with
      | [] => true
      | c :: _ => decide (startBySeqno < c.snapStart) }

/-- Well-formedness used by the registration proof: every item of a
checkpoint has a seqno at most the checkpoint's `snapEnd`. -/
def itemsWithinSnapEnd (ckpts : List MCheckpoint) : Prop :=
  ∀ c ∈ ckpts, ∀ i ∈ c.items, i.bySeqno ≤ c.snapEnd

instance (ckpts : List MCheckpoint) : Decidable (itemsWithinSnapEnd ckpts) := by
  unfold itemsWithinSnapEnd
  infer_instance

theorem firstSeqnoAbove_append_of_le (s e : Nat) (l1 l2 : List MItem)
    (hle : ∀ i ∈ l1, i.bySeqno ≤ e) (hse : e < s) :
    firstSeqnoAbove s (l1 ++ l2) = firstSeqnoAbove s l2 := by
  induction l1 with
  | nil => rfl
  | cons i rest ih =>
    have hi := hle i (List.mem_cons_self i rest)
    have hcond : ¬ (i.isMetaItem = false ∧ s < i.bySeqno) := by
      rintro ⟨_, hlt⟩
      omega
    simp only [List.cons_append, firstSeqnoAbove, if_neg hcond]
    exact ih fun j hj => hle j (List.mem_cons_of_mem i hj)

theorem regScan_eq_firstSeqnoAbove (lastBySeqno s : Nat)
    (ckpts : List MCheckpoint) (hwf : itemsWithinSnapEnd ckpts) :
    regScan lastBySeqno s ckpts =
      (firstSeqnoAbove s ((ckpts.map MCheckpoint.items).flatten)).getD
        (lastBySeqno + 1) := by
  induction ckpts with
  | nil => rfl
  | cons c rest ih =>
    by_cases hskip : c.snapEnd < s
    · have h1 : firstSeqnoAbove s (((c :: rest).map MCheckpoint.items).flatten) =
          firstSeqnoAbove s ((rest.map MCheckpoint.items).flatten) := by
        simp only [List.map_cons, List.flatten_cons]
        exact firstSeqnoAbove_append_of_le s c.snapEnd _ _
          (fun i hi => hwf c (List.mem_cons_self c rest) i hi) hskip
      simp only [regScan, if_pos hskip, h1]
      exact ih fun c' hc' => hwf c' (List.mem_cons_of_mem c hc')
    · simp only [regScan, if_neg hskip]
      cases hm : firstSeqnoAbove s (((c :: rest).map MCheckpoint.items).flatten) with
      | some q => simp
      | none => simp

/-- C7: for a manager whose items lie within their checkpoints' snapshot
ranges, `registerCursorBySeqno` returns `tryBackfill = true` iff
`startBySeqno` precedes the earliest snapshot still retained (the oldest
checkpoint's `snapStart`), together with the seqno from which the cursor will
next observe items: the first logged non-meta seqno above `startBySeqno`, or
`lastBySeqno + 1` when there is none yet. -/
theorem C7_registerCursorBySeqno_contract (c0 : MCheckpoint)
    (rest : List MCheckpoint) (lastBySeqno startBySeqno : Nat)
    (hwf : itemsWithinSnapEnd (c0 :: rest)) :
    ((registerCursorBySeqno (c0 :: rest) lastBySeqno startBySeqno).tryBackfill =
        true ↔ startBySeqno < c0.snapStart) ∧
    (registerCursorBySeqno (c0 :: rest) lastBySeqno startBySeqno).seqno =
      (firstSeqnoAbove startBySeqno
          (((c0 :: rest).map MCheckpoint.items).flatten)).getD
        (lastBySeqno + 1) := by
  constructor
  · simp [registerCursorBySeqno]
  · exact regScan_eq_firstSeqnoAbove lastBySeqno startBySeqno (c0 :: rest) hwf

/-- A two-checkpoint manager: a closed Memory checkpoint covering snapshot
`[1, 2]` with items at seqnos 1 and 2, then an open one covering `[3, 4]`
with an item at seqno 3. -/
def ckptsB : List MCheckpoint :=
  [{ ctype := CheckpointType.Memory, snapStart := 1, snapEnd := 2,
     items := [{ bySeqno := 1, isMetaItem := true },
               { bySeqno := 1, isMetaItem := false },
               { bySeqno := 2, isMetaItem := false },
               { bySeqno := 2, isMetaItem := true }] },
   { ctype := CheckpointType.Memory, snapStart := 3, snapEnd := 4,
     items := [{ bySeqno := 3, isMetaItem := true },
               { bySeqno := 3, isMetaItem := false }] }]

theorem C7_registerCursorBySeqno_contract_witness :
    ((registerCursorBySeqno ckptsB 3 0).tryBackfill = true ↔
      0 < (1 : Nat)) ∧
    (registerCursorBySeqno ckptsB 3 0).seqno =
      (firstSeqnoAbove 0 ((ckptsB.map MCheckpoint.items).flatten)).getD (3 + 1) := by
  have h := C7_registerCursorBySeqno_contract
    { ctype := CheckpointType.Memory, snapStart := 1, snapEnd := 2,
      items := [{ bySeqno := 1, isMetaItem := true },
                { bySeqno := 1, isMetaItem := false },
                { bySeqno := 2, isMetaItem := false },
                { bySeqno := 2, isMetaItem := true }] }
    [{ ctype := CheckpointType.Memory, snapStart := 3, snapEnd := 4,
       items := [{ bySeqno := 3, isMetaItem := true },
                 { bySeqno := 3, isMetaItem := false }] }]
    3 0 (by decide)
  exact h
